import Mathlib

/-!
Shallow embedding of `src/dns/dns_server.py`, a caching forwarding DNS proxy.

The cache is the Python dict `cache : {str: [entry]}` whose keys are strings
`f"{rtype}:{name}"` and whose values are lists of entry dicts with fields
`name`, `type`, `data`, `ttl`, `timestamp`.  We model the dict as an
association list with first-occurrence get/set/delete semantics (Python dicts
have unique keys, so first-occurrence agrees with dict semantics), time as
`Int` seconds, ttl as `Nat` (DNS TTLs are non-negative 32-bit), and record
data as an opaque `String`.

The wire codec (`parse_dns_response`, `extract_records`, `build_dns_response`)
is imported by the source from a `utils` module that is not part of `src/`;
the dispatcher is therefore parametrized over those three functions, and a
decoder modelled from the spec is provided separately for concrete instances.

I/O and lock usage are made observable through an event trace that each
operation emits alongside its result, mirroring the order of the Python
statements: `with cache_lock:` entry/exit, socket sends/receives and file
reads/writes.
-/

namespace DnsServer

/-- One cache entry dict: the record fields plus the `timestamp` captured at
insertion time (`dns_server.py` lines 91-97). -/
structure CacheEntry where
  name : String
  type : Nat
  data : String
  ttl : Nat
  timestamp : Int
deriving DecidableEq, Repr

/-- A record as produced by `extract_records` from an upstream reply:
`rec['name']`, `rec['type']`, `rec['data']`, `rec['ttl']`. -/
structure DnsRecord where
  name : String
  type : Nat
  data : String
  ttl : Nat
deriving DecidableEq, Repr

/-- The cache map: Python dict from string keys to entry lists. -/
abbrev Cache : Type := List (String × List CacheEntry)

/-- Python dict read `cache[k]` / `k in cache`: first occurrence of the key. -/
def dictGet (c : Cache) (k : String) : Option (List CacheEntry) :=
  match c with
  | [] => none
  | (k', v) :: rest => if k' = k then some v else dictGet rest k

/-- `cache.get(k, [])`. -/
def dictGetD (c : Cache) (k : String) : List CacheEntry :=
  (dictGet c k).getD []

/-- Python dict write `cache[k] = v`: update in place if present, else append
(Python dicts preserve insertion order). -/
def dictSet (c : Cache) (k : String) (v : List CacheEntry) : Cache :=
  match c with
  | [] => [(k, v)]
  | (k', v') :: rest => if k' = k then (k, v) :: rest else (k', v') :: dictSet rest k v

/-- Python `del cache[k]` (a no-op when the key is absent, matching the
guarded `if key in cache: del cache[key]` on lines 73-74). -/
def dictDelete (c : Cache) (k : String) : Cache :=
  match c with
  | [] => []
  | (k', v) :: rest => if k' = k then rest else (k', v) :: dictDelete rest k

/-- The liveness test `now - r['timestamp'] < r['ttl']` used on lines 26, 51
and 66. -/
def liveEntry (now : Int) (r : CacheEntry) : Bool :=
  now - r.timestamp < (r.ttl : Int)

/-- The cache key string `f"{rtype}:{name}"` (lines 61 and 90). -/
def mkKey (rtype : Nat) (name : String) : String :=
  toString rtype ++ ":" ++ name

/-- The expiry pass shared by `load_cache` (lines 25-28) and `cleanup_cache`
(lines 50-53): for every key filter its list to live entries and delete the
key when the filtered list is empty. -/
def expireMap (now : Int) (c : Cache) : Cache :=
  c.filterMap (fun kv =>
    let rs := kv.2.filter (liveEntry now)
    if rs.isEmpty then none else some (kv.1, rs))

/-- Observable events, in the order the Python statements execute them. -/
inductive Event where
  | lock
  | unlock
  | fileRead
  | fileWrite
  | sendClient (msg : List Nat)
  | sendUpstream (msg : List Nat)
  | recvUpstream
  | insertKey (key : String)
deriving DecidableEq, Repr

/-- Which events are I/O (socket send/receive, file read/write). -/
def ioEvent : Event → Bool
  | .fileRead => true
  | .fileWrite => true
  | .sendClient _ => true
  | .sendUpstream _ => true
  | .recvUpstream => true
  | _ => false

/-- The I/O events of a trace that occur while the lock is held (`d` is the
current lock depth). -/
def ioUnderLock (d : Nat) : List Event → List Event
  | [] => []
  | .lock :: es => ioUnderLock (d + 1) es
  | .unlock :: es => ioUnderLock (d - 1) es
  | e :: es => if ioEvent e ∧ 0 < d then e :: ioUnderLock d es else ioUnderLock d es

/-- What `load_cache` finds in `cache.json`: no file (`FileNotFoundError`),
unparseable JSON (`json.JSONDecodeError`), or a parsed raw map. -/
inductive Snapshot where
  | missing
  | corrupt
  | parsed (raw : Cache)

/-- `load_cache()` (lines 18-36): read and parse the file, then under the lock
drop expired entries (and emptied keys) from the raw map and install it; a
missing file or a parse failure installs the empty map instead.  Returns the
event trace and the installed cache. -/
def load_cache (now : Int) (s : Snapshot) : List Event × Cache :=
  match s with
  | .missing => ([], [])
  | .corrupt => ([.fileRead], [])
  | .parsed raw => ([.fileRead, .lock, .unlock], expireMap now raw)

/-- `save_cache()` (lines 39-42): under the lock, dump the current map as-is
to the snapshot file.  Returns the event trace and the map as written. -/
def save_cache (c : Cache) : List Event × Cache :=
  ([.lock, .fileWrite, .unlock], c)

/-- One iteration of the `cleanup_cache` sweep loop body (lines 48-54): under
the lock run the expiry pass, then (after releasing the lock) call
`save_cache`, which re-acquires the lock around its file write. -/
def cleanup_cache_once (now : Int) (c : Cache) : List Event × Cache :=
  let c' := expireMap now c
  ([Event.lock, Event.unlock] ++ (save_cache c').1, c')

/-- The cache lookup performed inside the lock by `handle_request`
(lines 65-74): filter the key's entries to the live ones; when none is live,
delete the key (if present) and return the empty list, otherwise return the
live sublist and leave the map untouched. -/
def lookup (now : Int) (c : Cache) (key : String) : List CacheEntry × Cache :=
  let valid := (dictGetD c key).filter (liveEntry now)
  if valid.isEmpty then ([], dictDelete c key) else (valid, c)

/-- The entry dict appended on lines 91-97, with `insertedAt` = the
`time.time()` taken at insertion. -/
def entryOf (record : DnsRecord) (t : Int) : CacheEntry :=
  ⟨record.name, record.type, record.data, record.ttl, t⟩

/-- One iteration of the insert loop (lines 89-97):
`cache.setdefault(k, []).append(entry)` for `k = f"{rec['type']}:{rec['name']}"`. -/
def insertRecord (t : Int) (c : Cache) (record : DnsRecord) : Cache :=
  let k := mkKey record.type record.name
  dictSet c k (dictGetD c k ++ [entryOf record t])

/-- The whole insert loop over the extracted records (lines 89-97). -/
def insertRecords (t : Int) (c : Cache) : List DnsRecord → Cache
  | [] => c
  | record :: rest => insertRecords t (insertRecord t c record) rest

/-- The fixed upstream receive timeout: `upstream.settimeout(5)` (line 80). -/
def upstreamTimeoutSeconds : Nat := 5

/-- Result of one `handle_request` run: the event trace in statement order and
the cache as left by the handler. -/
structure HandlerResult where
  trace : List Event
  cache : Cache
deriving DecidableEq, Repr

/-- `handle_request(data, addr, sock)` (lines 58-102), parametrized over the
three codec functions imported from the absent `utils` module and over the
upstream exchange outcome (`none` = the transient upstream socket times out or
raises; `some resp` = `recvfrom` returns `resp`).  `now` is the `time.time()`
of line 62 and `tIns` the one taken inside the insert loop (line 96).

Paths, mirroring the Python control flow:
* decode failure: `parse_dns_response` raises before the lock; the outer
  `except` logs, so the trace is empty and the cache untouched;
* cache hit: under the lock, build a synthetic response from the live entries
  and send it to the client (the `sendto` on line 70 is inside the `with
  cache_lock:` block), leaving the cache unchanged;
* cache miss: still under the lock, delete the key when it held no live
  entries; after release, forward the raw query bytes upstream; on a reply,
  relay the raw bytes to the client, then re-acquire the lock and append one
  entry per extracted record; on timeout/error the `except` swallows the
  exception and nothing more is sent or stored. -/
def handle_request
    (parseQ : List Nat → Option (String × Nat × Nat))
    (extractR : List Nat → List DnsRecord)
    (buildR : Nat → List Nat → List CacheEntry → String → Nat → List Nat)
    (upstreamReply : Option (List Nat)) (now tIns : Int)
    (c : Cache) (data : List Nat) : HandlerResult :=
  match parseQ data with
  | none => ⟨[], c⟩
  | some (qname, qtype, tid) =>
    let key := mkKey qtype qname
    let res := lookup now c key
    if res.1.isEmpty then
      match upstreamReply with
      | none => ⟨[.lock, .unlock, .sendUpstream data], res.2⟩
      | some resp =>
        let recs := extractR resp
        ⟨[.lock, .unlock, .sendUpstream data, .recvUpstream, .sendClient resp, .lock]
            ++ recs.map (fun r => .insertKey (mkKey r.type r.name)) ++ [.unlock],
          insertRecords tIns res.2 recs⟩
    else
      ⟨[.lock, .sendClient (buildR tid data res.1 qname qtype), .unlock], c⟩

/-- One inbound datagram together with its request-local environment. -/
structure Request where
  data : List Nat
  upstreamReply : Option (List Nat)
  now : Int
  tIns : Int

/-- The serving loop of `run_dns_server` (lines 114-116) viewed through its
effect on the cache: each received packet is handled (the per-request thread
catches every exception, so the loop always proceeds to the next packet). -/
def serveAll
    (parseQ : List Nat → Option (String × Nat × Nat))
    (extractR : List Nat → List DnsRecord)
    (buildR : Nat → List Nat → List CacheEntry → String → Nat → List Nat) :
    List Request → Cache → Cache
  | [], c => c
  | q :: qs, c =>
    serveAll parseQ extractR buildR qs
      (handle_request parseQ extractR buildR q.upstreamReply q.now q.tIns c q.data).cache

/-- Bytes of a label rendered as a string. -/
def labelString (bs : List Nat) : String :=
  String.mk (bs.map Char.ofNat)

/-- Modelled from the spec: the label parser of §4.1 `decodeQuery`, from the
`utils` module that is not in `src/` — reads length-prefixed labels (each at
most 63 bytes) until the zero terminator, failing on a length byte that runs
past the buffer end or a missing terminator.  The `fuel` argument only bounds
the recursion; each step strictly shrinks the buffer, so any fuel at least the
buffer length is enough. -/
def parseLabelsAux : Nat → List Nat → Option (List String × List Nat)
  | _, [] => none
  | _, 0 :: rest => some ([], rest)
  | 0, _ :: _ => none
  | fuel + 1, (n + 1) :: rest =>
    if n + 1 ≤ 63 ∧ n + 1 ≤ rest.length then
      match parseLabelsAux fuel (rest.drop (n + 1)) with
      | none => none
      | some (labels, rem) => some (labelString (rest.take (n + 1)) :: labels, rem)
    else none

/-- Modelled from the spec: §4.1 label sequence parsing, with enough fuel for
the whole buffer. -/
def parseLabels (l : List Nat) : Option (List String × List Nat) :=
  parseLabelsAux l.length l

/-- Modelled from the spec: §4.1 `decodeQuery` (the source's
`parse_dns_response` in the `utils` module, not in `src/`) — parse the fixed
12-byte header (transaction id first), then the question's labels, then the
16-bit type and 16-bit class, returning the dotted name, type code and
transaction id; fail on truncated input. -/
def parse_dns_response (data : List Nat) : Option (String × Nat × Nat) :=
  if data.length < 12 then none
  else
    let tid := data.getD 0 0 * 256 + data.getD 1 0
    match parseLabels (data.drop 12) with
    | none => none
    | some (labels, rest) =>
      if rest.length < 4 then none
      else some (String.intercalate "." labels, rest.getD 0 0 * 256 + rest.getD 1 0, tid)

/-- The transformation the spec's idempotent-persistence property claims for
persist-then-load with no time elapsed: drop exactly the entries whose ttl is
0 (claim-side definition, written from the spec's words for comparison with
the behaviour of the code). -/
def dropTtlZero (c : Cache) : Cache :=
  c.filterMap (fun kv =>
    let rs := kv.2.filter (fun r => decide (r.ttl ≠ 0))
    if rs.isEmpty then none else some (kv.1, rs))

/-- A concrete well-formed query packet: 12-byte header (transaction id 1,
one question), the question name "a", type 1, class 1. -/
def queryPacketA : List Nat :=
  [0, 1, 1, 0, 0, 1, 0, 0, 0, 0, 0, 0, 1, 97, 0, 0, 1, 0, 1]

/-! ### Dictionary lemmas -/

theorem dictGet_set_self (c : Cache) (k : String) (v : List CacheEntry) :
    dictGet (dictSet c k v) k = some v := by
  induction c with
  | nil => simp [dictSet, dictGet]
  | cons hd tl ih =>
    obtain ⟨k₀, v₀⟩ := hd
    by_cases h : k₀ = k
    · simp [dictSet, dictGet, h]
    · simp [dictSet, dictGet, h, ih]

theorem dictGet_set_ne (c : Cache) (k k' : String) (v : List CacheEntry)
    (h : k' ≠ k) : dictGet (dictSet c k v) k' = dictGet c k' := by
  induction c with
  | nil => simp [dictSet, dictGet, Ne.symm h]
  | cons hd tl ih =>
    obtain ⟨k₀, v₀⟩ := hd
    by_cases h₀ : k₀ = k
    · subst h₀
      simp [dictSet, dictGet, Ne.symm h]
    · by_cases h₁ : k₀ = k'
      · simp [dictSet, dictGet, h₀, h₁, h]
      · simp [dictSet, dictGet, h₀, h₁, ih]

theorem dictGet_delete_ne (c : Cache) (k k' : String) (h : k' ≠ k) :
    dictGet (dictDelete c k) k' = dictGet c k' := by
  induction c with
  | nil => simp [dictDelete]
  | cons hd tl ih =>
    obtain ⟨k₀, v₀⟩ := hd
    by_cases h₀ : k₀ = k
    · subst h₀
      simp [dictDelete, dictGet, Ne.symm h]
    · by_cases h₁ : k₀ = k'
      · simp [dictDelete, dictGet, h₀, h₁, h]
      · simp [dictDelete, dictGet, h₀, h₁, ih]

theorem dictDelete_of_get_none (c : Cache) (k : String)
    (h : dictGet c k = none) : dictDelete c k = c := by
  induction c with
  | nil => rfl
  | cons hd tl ih =>
    obtain ⟨k₀, v₀⟩ := hd
    by_cases h₀ : k₀ = k
    · simp [dictGet, h₀] at h
    · simp [dictGet, h₀] at h
      simp [dictDelete, h₀, ih h]

/-! ### Expiry-pass lemmas -/

theorem mem_expireMap_iff (now : Int) (c : Cache) (kv : String × List CacheEntry) :
    kv ∈ expireMap now c ↔
      ∃ rs, (kv.1, rs) ∈ c ∧ kv.2 = rs.filter (liveEntry now) ∧ kv.2 ≠ [] := by
  obtain ⟨k₂, rs₂⟩ := kv
  simp only [expireMap, List.mem_filterMap]
  constructor
  · rintro ⟨⟨k₁, rs₁⟩, ha, hf⟩
    by_cases he : (rs₁.filter (liveEntry now)).isEmpty
    · rw [if_pos he] at hf
      exact absurd hf (by simp)
    · rw [if_neg he] at hf
      injection hf with hf'
      injection hf' with e₁ e₂
      subst e₁
      subst e₂
      exact ⟨rs₁, ha, rfl, fun hnil => he (by simp [hnil])⟩
  · rintro ⟨rs, hmem, heq, hne⟩
    subst heq
    refine ⟨(k₂, rs), hmem, ?_⟩
    rw [if_neg (by simpa [List.isEmpty_iff] using hne)]

theorem expireMap_eq_dropTtlZero (now : Int) (c : Cache)
    (h : ∀ kv ∈ c, ∀ r ∈ kv.2, r.timestamp = now) :
    expireMap now c = dropTtlZero c := by
  unfold expireMap dropTtlZero
  refine List.filterMap_congr (fun kv hkv => ?_)
  have hf : kv.2.filter (liveEntry now) = kv.2.filter (fun r => decide (r.ttl ≠ 0)) :=
    List.filter_congr (fun r hr => by
      have ht := h kv hkv r hr
      simp only [liveEntry, ht, decide_eq_decide]
      omega)
  simp only [hf]

/-! ### Lookup lemmas -/

theorem lookup_fst (now : Int) (c : Cache) (key : String) :
    (lookup now c key).1 = (dictGetD c key).filter (liveEntry now) := by
  simp only [lookup]
  split
  · rename_i h
    simp only [List.isEmpty_iff] at h
    simp [h]
  · rfl

theorem lookup_empty_case (now : Int) (c : Cache) (key : String)
    (h : (dictGetD c key).filter (liveEntry now) = []) :
    lookup now c key = ([], dictDelete c key) := by
  simp only [lookup]
  rw [if_pos (by simp [h])]

/-! ### Insert lemmas -/

theorem insertRecord_getD_self (t : Int) (c : Cache) (record : DnsRecord) :
    dictGetD (insertRecord t c record) (mkKey record.type record.name)
      = dictGetD c (mkKey record.type record.name) ++ [entryOf record t] := by
  unfold insertRecord dictGetD
  rw [dictGet_set_self]
  rfl

theorem insertRecord_get_ne (t : Int) (c : Cache) (record : DnsRecord)
    (k : String) (h : k ≠ mkKey record.type record.name) :
    dictGet (insertRecord t c record) k = dictGet c k := by
  unfold insertRecord
  exact dictGet_set_ne _ _ _ _ h

theorem mem_getD_insertRecord (t : Int) (c : Cache) (record : DnsRecord)
    (k : String) (e : CacheEntry) (h : e ∈ dictGetD c k) :
    e ∈ dictGetD (insertRecord t c record) k := by
  by_cases hk : k = mkKey record.type record.name
  · subst hk
    rw [insertRecord_getD_self]
    exact List.mem_append_left _ h
  · unfold dictGetD
    rw [insertRecord_get_ne _ _ _ _ hk]
    exact h

theorem mem_getD_insertRecords (t : Int) (recs : List DnsRecord) (c : Cache)
    (k : String) (e : CacheEntry) (h : e ∈ dictGetD c k) :
    e ∈ dictGetD (insertRecords t c recs) k := by
  induction recs generalizing c with
  | nil => exact h
  | cons q rest ih => exact ih _ (mem_getD_insertRecord t c q k e h)

theorem insertRecords_mem_key (t : Int) (recs : List DnsRecord) (c : Cache) :
    ∀ r ∈ recs, entryOf r t ∈ dictGetD (insertRecords t c recs) (mkKey r.type r.name) := by
  induction recs generalizing c with
  | nil => simp
  | cons q rest ih =>
    intro r hr
    simp only [insertRecords]
    rcases List.mem_cons.mp hr with h | h
    · subst h
      apply mem_getD_insertRecords
      rw [insertRecord_getD_self]
      exact List.mem_append_right _ (List.mem_singleton.mpr rfl)
    · exact ih (insertRecord t c q) r h

/-! ### Trace lemmas -/

theorem ioUnderLock_insertKeys_append (d : Nat) (recs : List DnsRecord) (l : List Event) :
    ioUnderLock d (recs.map (fun r => Event.insertKey (mkKey r.type r.name)) ++ l)
      = ioUnderLock d l := by
  induction recs with
  | nil => rfl
  | cons q rest ih => simpa [ioUnderLock, ioEvent] using ih

/-! ### Claim theorems -/

/-- C2: a lookup at time T' returns exactly the entries whose liveness
predicate `now - insertedAt < ttl` holds at the moment of the read; an entry
inserted at time T with ttl D is returned for every T ≤ T' < T + D and
omitted for every T' ≥ T + D; and when no entry for the key is live, the key
is removed from the map entirely and an empty result is returned. -/
theorem c2_lookup_liveness (now : Int) (c : Cache) (key : String) :
    (lookup now c key).1 = (dictGetD c key).filter (liveEntry now)
    ∧ (∀ r ∈ dictGetD c key, ∀ T' : Int,
        r.timestamp ≤ T' → T' < r.timestamp + (r.ttl : Int) →
        r ∈ (lookup T' c key).1)
    ∧ (∀ (r : CacheEntry) (T' : Int),
        r.timestamp + (r.ttl : Int) ≤ T' → r ∉ (lookup T' c key).1)
    ∧ ((dictGetD c key).filter (liveEntry now) = [] →
        lookup now c key = ([], dictDelete c key)) := by
  refine ⟨lookup_fst now c key, ?_, ?_, lookup_empty_case now c key⟩
  · intro r hr T' h₁ h₂
    rw [lookup_fst]
    refine List.mem_filter.mpr ⟨hr, ?_⟩
    simp only [liveEntry, decide_eq_true_eq]
    omega
  · intro r T' h hmem
    rw [lookup_fst] at hmem
    have := (List.mem_filter.mp hmem).2
    simp only [liveEntry, decide_eq_true_eq] at this
    omega

/-- Witness for C2: the entry (ttl 5, inserted at 0) is returned at time 3
and at time 100 the key is deleted with an empty result. -/
theorem c2_lookup_liveness_witness :
    (⟨"a", 1, "d", 5, 0⟩ : CacheEntry)
        ∈ (lookup 3 [("1:a", [⟨"a", 1, "d", 5, 0⟩])] "1:a").1
    ∧ lookup 100 [("1:a", [⟨"a", 1, "d", 5, 0⟩])] "1:a"
        = ([], dictDelete [("1:a", [⟨"a", 1, "d", 5, 0⟩])] "1:a") :=
  ⟨(c2_lookup_liveness 3 [("1:a", [⟨"a", 1, "d", 5, 0⟩])] "1:a").2.1
      ⟨"a", 1, "d", 5, 0⟩ (by decide) 3 (by decide) (by decide),
   (c2_lookup_liveness 100 [("1:a", [⟨"a", 1, "d", 5, 0⟩])] "1:a").2.2.2 (by decide)⟩

/-- C4: after the sweep body runs at time `now`, no key maps to an entry with
`now ≥ insertedAt + ttl` and no key maps to an empty sequence; every surviving
key's value is exactly the filtered sequence of its live entries, and every
key with a non-empty live subset survives with exactly that subset. -/
theorem c4_sweep_invariant (now : Int) (c : Cache) :
    (∀ kv ∈ (cleanup_cache_once now c).2,
        kv.2 ≠ [] ∧ ∀ r ∈ kv.2, ¬ (now ≥ r.timestamp + (r.ttl : Int)))
    ∧ (∀ kv ∈ (cleanup_cache_once now c).2,
        ∃ rs, (kv.1, rs) ∈ c ∧ kv.2 = rs.filter (liveEntry now))
    ∧ (∀ kv ∈ c, kv.2.filter (liveEntry now) ≠ [] →
        (kv.1, kv.2.filter (liveEntry now)) ∈ (cleanup_cache_once now c).2) := by
  refine ⟨?_, ?_, ?_⟩
  · intro kv hkv
    obtain ⟨rs, _, heq, hne⟩ := (mem_expireMap_iff now c kv).mp hkv
    refine ⟨hne, ?_⟩
    intro r hr
    rw [heq] at hr
    have := (List.mem_filter.mp hr).2
    simp only [liveEntry, decide_eq_true_eq] at this
    omega
  · intro kv hkv
    obtain ⟨rs, hmem, heq, _⟩ := (mem_expireMap_iff now c kv).mp hkv
    exact ⟨rs, hmem, heq⟩
  · intro kv hkv hne
    exact (mem_expireMap_iff now c (kv.1, kv.2.filter (liveEntry now))).mpr
      ⟨kv.2, by simpa using hkv, rfl, hne⟩

/-- Witness for C4: sweeping at time 100 keeps the key whose entry (ttl 200)
is still live, with exactly its live sublist. -/
theorem c4_sweep_invariant_witness :
    ("1:b", ([⟨"b", 1, "d", 200, 0⟩] : List CacheEntry).filter (liveEntry 100))
      ∈ (cleanup_cache_once 100
          [("1:a", [⟨"a", 1, "d", 5, 0⟩]), ("1:b", [⟨"b", 1, "d", 200, 0⟩])]).2 :=
  (c4_sweep_invariant 100
      [("1:a", [⟨"a", 1, "d", 5, 0⟩]), ("1:b", [⟨"b", 1, "d", 200, 0⟩])]).2.2
    ("1:b", [⟨"b", 1, "d", 200, 0⟩]) (by decide) (by decide)

/-- C8: a missing snapshot file yields an empty cache map, a corrupt one also
yields an empty map, and in the successful case every entry whose stored
timestamp plus ttl has elapsed relative to the current time is dropped before
the map is installed (every installed entry is live, and every key with a
live subset is installed with it). -/
theorem c8_load_robustness (now : Int) :
    (load_cache now .missing).2 = []
    ∧ (load_cache now .corrupt).2 = []
    ∧ (∀ raw : Cache, ∀ kv ∈ (load_cache now (.parsed raw)).2, ∀ r ∈ kv.2,
        now - r.timestamp < (r.ttl : Int))
    ∧ (∀ raw : Cache, ∀ kv ∈ raw, kv.2.filter (liveEntry now) ≠ [] →
        (kv.1, kv.2.filter (liveEntry now)) ∈ (load_cache now (.parsed raw)).2) := by
  refine ⟨rfl, rfl, ?_, ?_⟩
  · intro raw kv hkv r hr
    obtain ⟨rs, _, heq, _⟩ := (mem_expireMap_iff now raw kv).mp hkv
    rw [heq] at hr
    have := (List.mem_filter.mp hr).2
    simpa only [liveEntry, decide_eq_true_eq] using this
  · intro raw kv hkv hne
    exact (mem_expireMap_iff now raw (kv.1, kv.2.filter (liveEntry now))).mpr
      ⟨kv.2, by simpa using hkv, rfl, hne⟩

/-- Witness for C8: loading a snapshot with one live and one expired entry
under one key installs exactly the live sublist. -/
theorem c8_load_robustness_witness :
    ("1:a", ([⟨"a", 1, "d", 200, 0⟩, ⟨"a", 1, "e", 5, 0⟩] : List CacheEntry).filter
        (liveEntry 100))
      ∈ (load_cache 100
          (.parsed [("1:a", [⟨"a", 1, "d", 200, 0⟩, ⟨"a", 1, "e", 5, 0⟩])])).2 :=
  (c8_load_robustness 100).2.2.2 [("1:a", [⟨"a", 1, "d", 200, 0⟩, ⟨"a", 1, "e", 5, 0⟩])]
    ("1:a", [⟨"a", 1, "d", 200, 0⟩, ⟨"a", 1, "e", 5, 0⟩]) (by decide) (by decide)

/-- C9: insert appends a new entry with `insertedAt` set to the insertion
time to the sequence for `(record.type, record.name)`, creating the sequence
if absent, leaves every other key unchanged, and never deduplicates: a
repeated insert of the same record accumulates entries (two inserts grow the
key's sequence by exactly two). -/
theorem c9_insert_appends (t : Int) (c : Cache) (record : DnsRecord) :
    dictGetD (insertRecord t c record) (mkKey record.type record.name)
      = dictGetD c (mkKey record.type record.name) ++ [entryOf record t]
    ∧ (∀ k, k ≠ mkKey record.type record.name →
        dictGet (insertRecord t c record) k = dictGet c k)
    ∧ (dictGetD (insertRecord t (insertRecord t c record) record)
          (mkKey record.type record.name)).length
        = (dictGetD c (mkKey record.type record.name)).length + 2 := by
  refine ⟨insertRecord_getD_self t c record,
    fun k hk => insertRecord_get_ne t c record k hk, ?_⟩
  rw [insertRecord_getD_self, insertRecord_getD_self]
  simp

/-- Witness for C9: inserting an A record for "a" into the empty cache leaves
an unrelated key absent. -/
theorem c9_insert_appends_witness :
    dictGet (insertRecord 0 [] ⟨"a", 1, "d", 5⟩) "2:b" = dictGet [] "2:b" :=
  (c9_insert_appends 0 [] ⟨"a", 1, "d", 5⟩).2.1 "2:b" (by decide)

/-- C10: when a lookup finds at least one live entry for the key (a cache
hit), `handle_request` leaves the stored cache map completely unchanged. -/
theorem c10_hit_frame
    (parseQ : List Nat → Option (String × Nat × Nat))
    (extractR : List Nat → List DnsRecord)
    (buildR : Nat → List Nat → List CacheEntry → String → Nat → List Nat)
    (up : Option (List Nat)) (now tIns : Int) (c : Cache) (data : List Nat)
    (qname : String) (qtype tid : Nat)
    (hp : parseQ data = some (qname, qtype, tid))
    (hv : (dictGetD c (mkKey qtype qname)).filter (liveEntry now) ≠ []) :
    (handle_request parseQ extractR buildR up now tIns c data).cache = c := by
  have hf := lookup_fst now c (mkKey qtype qname)
  simp only [handle_request, hp]
  rw [if_neg (by rw [hf]; simpa [List.isEmpty_iff] using hv)]

/-- Witness for C10: a hit on a cache holding one live and one expired entry
for the queried key leaves the map (expired entry included) untouched. -/
theorem c10_hit_frame_witness :
    (handle_request parse_dns_response (fun _ => []) (fun _ _ _ _ _ => [])
        none 3 3 [("1:a", [⟨"a", 1, "d", 5, 0⟩, ⟨"a", 1, "e", 1, 0⟩])]
        queryPacketA).cache
      = [("1:a", [⟨"a", 1, "d", 5, 0⟩, ⟨"a", 1, "e", 1, 0⟩])] :=
  c10_hit_frame parse_dns_response (fun _ => []) (fun _ _ _ _ _ => []) none 3 3
    [("1:a", [⟨"a", 1, "d", 5, 0⟩, ⟨"a", 1, "e", 1, 0⟩])] queryPacketA
    "a" 1 1 (by decide) (by decide)

/-- C5: on a malformed query packet the decode raises before the lock, so the
handler emits no event at all (no response, no lock, no cache mutation) and
the serving loop handles the remaining packets exactly as if the malformed one
had not arrived. -/
theorem c5_malformed_harmless
    (parseQ : List Nat → Option (String × Nat × Nat))
    (extractR : List Nat → List DnsRecord)
    (buildR : Nat → List Nat → List CacheEntry → String → Nat → List Nat)
    (up : Option (List Nat)) (now tIns : Int) (c : Cache) (data : List Nat)
    (qs : List Request)
    (hp : parseQ data = none) :
    (handle_request parseQ extractR buildR up now tIns c data).trace = []
    ∧ (handle_request parseQ extractR buildR up now tIns c data).cache = c
    ∧ serveAll parseQ extractR buildR (⟨data, up, now, tIns⟩ :: qs) c
        = serveAll parseQ extractR buildR qs c := by
  refine ⟨?_, ?_, ?_⟩ <;> simp [handle_request, hp, serveAll]

/-- Witness for C5: a 3-byte packet (shorter than the 12-byte header) is
rejected by the modelled decoder; handling it emits nothing, leaves the cache
as it was, and the loop goes on to serve the next packet. -/
theorem c5_malformed_harmless_witness :
    (handle_request parse_dns_response (fun _ => []) (fun _ _ _ _ _ => [])
        none 0 0 [("1:a", [⟨"a", 1, "d", 5, 0⟩])] [0, 1, 2]).trace = []
    ∧ (handle_request parse_dns_response (fun _ => []) (fun _ _ _ _ _ => [])
        none 0 0 [("1:a", [⟨"a", 1, "d", 5, 0⟩])] [0, 1, 2]).cache
        = [("1:a", [⟨"a", 1, "d", 5, 0⟩])]
    ∧ serveAll parse_dns_response (fun _ => []) (fun _ _ _ _ _ => [])
        (⟨[0, 1, 2], none, 0, 0⟩ :: [⟨queryPacketA, none, 3, 3⟩])
        [("1:a", [⟨"a", 1, "d", 5, 0⟩])]
        = serveAll parse_dns_response (fun _ => []) (fun _ _ _ _ _ => [])
            [⟨queryPacketA, none, 3, 3⟩] [("1:a", [⟨"a", 1, "d", 5, 0⟩])] :=
  c5_malformed_harmless parse_dns_response (fun _ => []) (fun _ _ _ _ _ => [])
    none 0 0 [("1:a", [⟨"a", 1, "d", 5, 0⟩])] [0, 1, 2]
    [⟨queryPacketA, none, 3, 3⟩] (by decide)

/-- C6: on a cache miss with an upstream reply, the handler forwards the raw
query bytes upstream, relays the raw upstream bytes unmodified to the client,
and only after that send re-acquires the lock and inserts each extracted
record under the key formed from that record's own type and name (the insert
events follow the client send in the trace, and each record's entry lands
under its own key). -/
theorem c6_miss_relay_insert
    (parseQ : List Nat → Option (String × Nat × Nat))
    (extractR : List Nat → List DnsRecord)
    (buildR : Nat → List Nat → List CacheEntry → String → Nat → List Nat)
    (now tIns : Int) (c : Cache) (data resp : List Nat)
    (qname : String) (qtype tid : Nat)
    (hp : parseQ data = some (qname, qtype, tid))
    (hmiss : (dictGetD c (mkKey qtype qname)).filter (liveEntry now) = []) :
    (handle_request parseQ extractR buildR (some resp) now tIns c data).trace
      = [.lock, .unlock, .sendUpstream data, .recvUpstream, .sendClient resp, .lock]
          ++ (extractR resp).map (fun r => .insertKey (mkKey r.type r.name))
          ++ [.unlock]
    ∧ (handle_request parseQ extractR buildR (some resp) now tIns c data).cache
      = insertRecords tIns (dictDelete c (mkKey qtype qname)) (extractR resp)
    ∧ ∀ r ∈ extractR resp,
        entryOf r tIns
          ∈ dictGetD
              (handle_request parseQ extractR buildR (some resp) now tIns c data).cache
              (mkKey r.type r.name) := by
  have hl := lookup_empty_case now c (mkKey qtype qname) hmiss
  have hc : (handle_request parseQ extractR buildR (some resp) now tIns c data).cache
      = insertRecords tIns (dictDelete c (mkKey qtype qname)) (extractR resp) := by
    simp [handle_request, hp, hl]
  refine ⟨?_, hc, ?_⟩
  · simp [handle_request, hp, hl]
  · intro r hr
    rw [hc]
    exact insertRecords_mem_key tIns (extractR resp) _ r hr

/-- Witness for C6: an empty cache misses for the query "a"; with an upstream
reply carrying one A record for "example.com" (ttl 300), the entry appears
under the key "1:example.com" (Scenario A of the spec). -/
theorem c6_miss_relay_insert_witness :
    entryOf ⟨"example.com", 1, "1.2.3.4", 300⟩ 50
      ∈ dictGetD
          (handle_request parse_dns_response
            (fun _ => [⟨"example.com", 1, "1.2.3.4", 300⟩]) (fun _ _ _ _ _ => [])
            (some [9, 9, 9]) 50 50 [] queryPacketA).cache
          (mkKey 1 "example.com") :=
  (c6_miss_relay_insert parse_dns_response
      (fun _ => [⟨"example.com", 1, "1.2.3.4", 300⟩]) (fun _ _ _ _ _ => [])
      50 50 [] queryPacketA [9, 9, 9] "a" 1 1 (by decide) (by decide)).2.2
    ⟨"example.com", 1, "1.2.3.4", 300⟩ (by decide)

/-- C7 as stated is false: a timed-out miss whose key held only expired
entries has already deleted that key inside the lookup, so the cache is not
left unchanged by the request — here the concrete cache holding one expired
entry under the queried key shrinks to the empty map. -/
theorem c7_counterexample :
    (handle_request parse_dns_response (fun _ => []) (fun _ _ _ _ _ => [])
        none 100 100 [("1:a", [⟨"a", 1, "d", 5, 0⟩])] queryPacketA).cache
      ≠ [("1:a", [⟨"a", 1, "d", 5, 0⟩])] := by decide

/-- C7 amended: when the upstream exchange (bounded by the fixed 5-second
timeout) fails, the handler sends nothing further to the client and issues no
retry (the trace holds exactly one upstream send and no client send), no
insertion occurs, and the only cache change is the lazy eviction already
performed by the lookup — the key is deleted when it held no live entries —
so a request whose key was absent leaves the cache unchanged. -/
theorem c7_amended_timeout
    (parseQ : List Nat → Option (String × Nat × Nat))
    (extractR : List Nat → List DnsRecord)
    (buildR : Nat → List Nat → List CacheEntry → String → Nat → List Nat)
    (now tIns : Int) (c : Cache) (data : List Nat)
    (qname : String) (qtype tid : Nat)
    (hp : parseQ data = some (qname, qtype, tid))
    (hmiss : (dictGetD c (mkKey qtype qname)).filter (liveEntry now) = []) :
    (handle_request parseQ extractR buildR none now tIns c data).trace
      = [.lock, .unlock, .sendUpstream data]
    ∧ (handle_request parseQ extractR buildR none now tIns c data).cache
      = dictDelete c (mkKey qtype qname)
    ∧ (dictGet c (mkKey qtype qname) = none →
        (handle_request parseQ extractR buildR none now tIns c data).cache = c)
    ∧ upstreamTimeoutSeconds = 5 := by
  have hl := lookup_empty_case now c (mkKey qtype qname) hmiss
  have hc : (handle_request parseQ extractR buildR none now tIns c data).cache
      = dictDelete c (mkKey qtype qname) := by
    simp [handle_request, hp, hl]
  refine ⟨?_, hc, ?_, rfl⟩
  · simp [handle_request, hp, hl]
  · intro habs
    rw [hc]
    exact dictDelete_of_get_none c _ habs

/-- Witness for C7 amended: a timed-out miss on an empty cache emits exactly
lock, unlock, one upstream send — and leaves the cache empty. -/
theorem c7_amended_timeout_witness :
    (handle_request parse_dns_response (fun _ => []) (fun _ _ _ _ _ => [])
        none 100 100 [] queryPacketA).trace
      = [.lock, .unlock, .sendUpstream queryPacketA]
    ∧ (handle_request parse_dns_response (fun _ => []) (fun _ _ _ _ _ => [])
        none 100 100 [] queryPacketA).cache = ([] : Cache) :=
  ⟨(c7_amended_timeout parse_dns_response (fun _ => []) (fun _ _ _ _ _ => [])
      100 100 [] queryPacketA "a" 1 1 (by decide) (by decide)).1,
   (c7_amended_timeout parse_dns_response (fun _ => []) (fun _ _ _ _ _ => [])
      100 100 [] queryPacketA "a" 1 1 (by decide) (by decide)).2.2.1 (by decide)⟩

/-- C3 as stated is false: load drops every entry already expired at load
time, not only those with ttl exactly 0 — persisting a map holding one entry
with ttl 5 inserted at time 0 and reloading at time 100 yields a map missing
that entry although its ttl is not 0. -/
theorem c3_counterexample :
    (load_cache 100 (Snapshot.parsed (save_cache [("1:a", [⟨"a", 1, "d", 5, 0⟩])]).2)).2
      ≠ dropTtlZero [("1:a", [⟨"a", 1, "d", 5, 0⟩])] := by decide

/-- C3 amended: persist writes the map exactly as-is without filtering, and
persist followed immediately by load reproduces the persisted map minus the
entries already expired at that moment (`now - insertedAt ≥ ttl`); in the
special case where no time has elapsed since each entry's insertion
(`insertedAt = now` throughout), exactly the entries whose ttl is 0 are
dropped. -/
theorem c3_amended (now : Int) (c : Cache) :
    (save_cache c).2 = c
    ∧ (load_cache now (Snapshot.parsed (save_cache c).2)).2 = expireMap now c
    ∧ ((∀ kv ∈ c, ∀ r ∈ kv.2, r.timestamp = now) →
        (load_cache now (Snapshot.parsed (save_cache c).2)).2 = dropTtlZero c) :=
  ⟨rfl, rfl, fun h => expireMap_eq_dropTtlZero now c h⟩

/-- Witness for C3 amended: a map whose entries were all inserted at the
persist instant (time 7) round-trips with only its ttl-0 entry dropped. -/
theorem c3_amended_witness :
    (load_cache 7 (Snapshot.parsed
        (save_cache [("1:a", [⟨"a", 1, "d", 300, 7⟩]), ("0:b", [⟨"b", 0, "d", 0, 7⟩])]).2)).2
      = dropTtlZero [("1:a", [⟨"a", 1, "d", 300, 7⟩]), ("0:b", [⟨"b", 0, "d", 0, 7⟩])] :=
  (c3_amended 7 [("1:a", [⟨"a", 1, "d", 300, 7⟩]), ("0:b", [⟨"b", 0, "d", 0, 7⟩])]).2.2
    (by decide)

/-- C1 as stated is false: `save_cache` acquires the cache lock and performs
its snapshot file write while still holding it, so a lock acquisition does
span a file write. -/
theorem c1_counterexample :
    ioUnderLock 0 (save_cache []).1 = [Event.fileWrite]
    ∧ ioUnderLock 0 (save_cache []).1 ≠ [] := by decide

/-- C1 amended: load and the miss and malformed paths of the handler perform
no I/O while the lock is held, but persist performs its file write while
holding the lock (hence so does the sweep, through the persist it invokes),
and a cache-hit lookup sends the client response while holding the lock. -/
theorem c1_amended :
    (∀ (now : Int) (s : Snapshot), ioUnderLock 0 (load_cache now s).1 = [])
    ∧ (∀ c : Cache, ioUnderLock 0 (save_cache c).1 = [Event.fileWrite])
    ∧ (∀ (now : Int) (c : Cache),
        ioUnderLock 0 (cleanup_cache_once now c).1 = [Event.fileWrite])
    ∧ (∀ (parseQ : List Nat → Option (String × Nat × Nat))
        (extractR : List Nat → List DnsRecord)
        (buildR : Nat → List Nat → List CacheEntry → String → Nat → List Nat)
        (up : Option (List Nat)) (now tIns : Int) (c : Cache) (data : List Nat),
        parseQ data = none →
        ioUnderLock 0 (handle_request parseQ extractR buildR up now tIns c data).trace = [])
    ∧ (∀ (parseQ : List Nat → Option (String × Nat × Nat))
        (extractR : List Nat → List DnsRecord)
        (buildR : Nat → List Nat → List CacheEntry → String → Nat → List Nat)
        (up : Option (List Nat)) (now tIns : Int) (c : Cache) (data : List Nat)
        (qname : String) (qtype tid : Nat),
        parseQ data = some (qname, qtype, tid) →
        (dictGetD c (mkKey qtype qname)).filter (liveEntry now) = [] →
        ioUnderLock 0 (handle_request parseQ extractR buildR up now tIns c data).trace = [])
    ∧ (∀ (parseQ : List Nat → Option (String × Nat × Nat))
        (extractR : List Nat → List DnsRecord)
        (buildR : Nat → List Nat → List CacheEntry → String → Nat → List Nat)
        (up : Option (List Nat)) (now tIns : Int) (c : Cache) (data : List Nat)
        (qname : String) (qtype tid : Nat),
        parseQ data = some (qname, qtype, tid) →
        (dictGetD c (mkKey qtype qname)).filter (liveEntry now) ≠ [] →
        ioUnderLock 0 (handle_request parseQ extractR buildR up now tIns c data).trace
          = [Event.sendClient
              (buildR tid data ((dictGetD c (mkKey qtype qname)).filter (liveEntry now))
                qname qtype)]) := by
  refine ⟨?_, ?_, ?_, ?_, ?_, ?_⟩
  · intro now s
    cases s <;> rfl
  · intro c
    rfl
  · intro now c
    rfl
  · intro parseQ extractR buildR up now tIns c data hp
    simp [handle_request, hp, ioUnderLock]
  · intro parseQ extractR buildR up now tIns c data qname qtype tid hp hmiss
    have hl := lookup_empty_case now c (mkKey qtype qname) hmiss
    cases up with
    | none => simp [handle_request, hp, hl, ioUnderLock]
    | some resp =>
      simp [handle_request, hp, hl, ioUnderLock, ioEvent, ioUnderLock_insertKeys_append]
  · intro parseQ extractR buildR up now tIns c data qname qtype tid hp hv
    have hf := lookup_fst now c (mkKey qtype qname)
    simp only [handle_request, hp]
    rw [if_neg (by rw [hf]; simpa [List.isEmpty_iff] using hv)]
    simp only [ioUnderLock, ioEvent, hf]
    rfl

/-- Witness for C1 amended: the sweep at an instant writes the file under the
lock, and a concrete cache hit sends the synthetic response under the lock. -/
theorem c1_amended_witness :
    ioUnderLock 0 (cleanup_cache_once 0 []).1 = [Event.fileWrite]
    ∧ ioUnderLock 0 (handle_request parse_dns_response (fun _ => [])
        (fun _ _ _ _ _ => [7]) none 3 3 [("1:a", [⟨"a", 1, "d", 5, 0⟩])]
        queryPacketA).trace
      = [Event.sendClient [7]] :=
  ⟨c1_amended.2.2.1 0 [],
   c1_amended.2.2.2.2.2 parse_dns_response (fun _ => []) (fun _ _ _ _ _ => [7])
     none 3 3 [("1:a", [⟨"a", 1, "d", 5, 0⟩])] queryPacketA "a" 1 1
     (by decide) (by decide)⟩

end DnsServer
